import Mathlib

/-!
Verification of the PKCS#1 `RsaPublicKeyDocument` core
(`src/pkcs1/src/document/public_key.rs`).

The document layer is translated directly from the source.  The DER
grammar codec (`RsaPublicKey::try_from` / `Encodable::to_vec`) and the
PEM envelope codec (`pem::decode_vec` / `pem::encode_string`) are
external collaborators of this fragment (their code is not part of the
verified source), so the document operations are parametrized over a
`BinCodec` and a `PemCodec` record holding those two functions, exactly
as the design describes them: `decode : bytes → view | error` and
`encode : view → bytes | error`, resp. `decode : text → (label, bytes)
| error` and `encode : label → bytes → text | error`.

Rust `panic!`/`expect` has no counterpart in a total language; a
function whose Rust original can panic is modelled with an `Option`
result where `none` means the `expect` fired (the process aborts).
Fallible Rust functions returning `Result` are modelled with `Except`.
Byte slices/vectors are modelled as `List Nat`.
-/

/-- Modelled from the spec: the error type of the external DER codec
(`der::Error`, not part of the verified source).  The document layer
only propagates these values, so an opaque numeric code suffices. -/
structure DerError where
  code : Nat
deriving DecidableEq, Repr

/-- Modelled from the spec: the error type of the external PEM envelope
codec (`pem::Error`, not part of the verified source).  The `label`
variant is the one the document layer constructs itself on a label
mismatch; every other variant is carried opaquely. -/
inductive PemError where
  | label
  | other (code : Nat)
deriving DecidableEq, Repr

/-- Modelled from the spec: the crate error type (`pkcs1::Error`, not
part of the verified source).  `asn1` wraps DER codec errors (the
`From<der::Error>` conversion behind `?`), `pem` wraps envelope codec
errors, `io` stands for file-system failures. -/
inductive Error where
  | asn1 (e : DerError)
  | pem (e : PemError)
  | io
deriving DecidableEq, Repr

/-- Modelled from the spec: the typed key view (`RsaPublicKey<'a>`, not
part of the verified source): the structural fields of the key as byte
sequences. -/
structure RsaPublicKey where
  modulus : List Nat
  publicExponent : List Nat
deriving DecidableEq, Repr

/-- The Binary Codec Adapter boundary: `decode` is the source's
`RsaPublicKey::try_from(&[u8])`, `encode` is `Encodable::to_vec`. -/
structure BinCodec where
  decode : List Nat → Except DerError RsaPublicKey
  encode : RsaPublicKey → Except DerError (List Nat)

/-- The Textual Envelope Adapter boundary: `decodeVec` is
`pem::decode_vec`, `encodeString` is `pem::encode_string`. -/
structure PemCodec where
  decodeVec : String → Except PemError (String × List Nat)
  encodeString : String → List Nat → Except PemError String

/-- Modelled from the spec: the expected PEM label constant
(`crate::public_key::PEM_TYPE_LABEL`, not part of the verified source;
its value is pinned by the source doc comment showing the
`-----BEGIN RSA PUBLIC KEY-----` delimiter). -/
def PEM_TYPE_LABEL : String := "RSA PUBLIC KEY"

/-- `RsaPublicKeyDocument`: owns a byte buffer holding the ASN.1 DER
encoding. -/
structure RsaPublicKeyDocument where
  bytes : List Nat
deriving DecidableEq, Repr

namespace RsaPublicKeyDocument

/-- `impl TryFrom<&[u8]> for RsaPublicKeyDocument`:
`RsaPublicKey::try_from(bytes)?; Ok(Self(bytes.to_owned()))`. -/
def tryFromSlice (C : BinCodec) (bytes : List Nat) :
    Except Error RsaPublicKeyDocument :=
  match C.decode bytes with
  | .error e => .error (.asn1 e)
  | .ok _ => .ok ⟨bytes⟩

/-- `impl TryFrom<Vec<u8>> for RsaPublicKeyDocument`:
`RsaPublicKey::try_from(bytes.as_slice())?; Ok(Self(bytes))`. -/
def tryFromVec (C : BinCodec) (bytes : List Nat) :
    Except Error RsaPublicKeyDocument :=
  match C.decode bytes with
  | .error e => .error (.asn1 e)
  | .ok _ => .ok ⟨bytes⟩

/-- `RsaPublicKeyDocument::from_der`: `bytes.try_into()`. -/
def from_der (C : BinCodec) (bytes : List Nat) :
    Except Error RsaPublicKeyDocument :=
  tryFromSlice C bytes

/-- `impl AsRef<[u8]> for RsaPublicKeyDocument`. -/
def as_ref (d : RsaPublicKeyDocument) : List Nat :=
  d.bytes

/-- `RsaPublicKeyDocument::public_key`:
`RsaPublicKey::try_from(self.0.as_slice()).expect("malformed
PublicKeyDocument")`.  `none` models the `expect` panicking. -/
def public_key (C : BinCodec) (d : RsaPublicKeyDocument) :
    Option RsaPublicKey :=
  (C.decode d.bytes).toOption

/-- `RsaPublicKeyDocument::from_pem`: decode the envelope, check the
label against `PEM_TYPE_LABEL` (mismatch yields `pem::Error::Label`
before any binary validation), then forward to `from_der`. -/
def from_pem (C : BinCodec) (P : PemCodec) (s : String) :
    Except Error RsaPublicKeyDocument :=
  match P.decodeVec s with
  | .error e => .error (.pem e)
  | .ok (label, der_bytes) =>
    if label ≠ PEM_TYPE_LABEL then
      .error (.pem .label)
    else
      from_der C der_bytes

/-- `RsaPublicKeyDocument::to_pem`:
`pem::encode_string(PEM_TYPE_LABEL, &self.0).expect(...)`; `none`
models the `expect` panicking. -/
def to_pem (P : PemCodec) (d : RsaPublicKeyDocument) : Option String :=
  (P.encodeString PEM_TYPE_LABEL d.bytes).toOption

/-- `impl From<&RsaPublicKey> for RsaPublicKeyDocument`:
`spki.to_vec().ok().and_then(|buf| buf.try_into().ok())
.expect(error::DER_ENCODING_MSG)`; `none` models the `expect`
panicking. -/
def fromPublicKey (C : BinCodec) (spki : RsaPublicKey) :
    Option RsaPublicKeyDocument :=
  ((C.encode spki).toOption.bind fun buf => (tryFromVec C buf).toOption)

/-- A binary file store: path → contents, `none` when the file is
missing/unreadable. -/
def FS := String → Option (List Nat)

/-- A text file store for the PEM variants (`fs::read_to_string` /
`fs::write` of a UTF-8 string). -/
def TFS := String → Option String

/-- Overwrite one binary file. -/
def fsWrite (fs : FS) (p : String) (data : List Nat) : FS :=
  fun q => if q = p then some data else fs q

/-- Overwrite one text file. -/
def tfsWrite (tfs : TFS) (p : String) (data : String) : TFS :=
  fun q => if q = p then some data else tfs q

/-- `RsaPublicKeyDocument::read_der_file`: `fs::read(path)?.try_into()`. -/
def read_der_file (C : BinCodec) (fs : FS) (p : String) :
    Except Error RsaPublicKeyDocument :=
  match fs p with
  | none => .error .io
  | some data => tryFromVec C data

/-- `RsaPublicKeyDocument::read_pem_file`:
`Self::from_pem(&fs::read_to_string(path)?)`. -/
def read_pem_file (C : BinCodec) (P : PemCodec) (tfs : TFS) (p : String) :
    Except Error RsaPublicKeyDocument :=
  match tfs p with
  | none => .error .io
  | some s => from_pem C P s

/-- `RsaPublicKeyDocument::write_der_file`:
`fs::write(path, self.as_ref())?; Ok(())`. -/
def write_der_file (fs : FS) (p : String) (d : RsaPublicKeyDocument) : FS :=
  fsWrite fs p d.as_ref

/-- `RsaPublicKeyDocument::write_pem_file`:
`fs::write(path, self.to_pem().as_bytes())?; Ok(())`; `none` models the
`expect` inside `to_pem` panicking before the write. -/
def write_pem_file (P : PemCodec) (tfs : TFS) (p : String)
    (d : RsaPublicKeyDocument) : Option TFS :=
  (to_pem P d).map fun s => tfsWrite tfs p s

/-- `impl FromStr for RsaPublicKeyDocument`: `Self::from_pem(s)`. -/
def from_str (C : BinCodec) (P : PemCodec) (s : String) :
    Except Error RsaPublicKeyDocument :=
  from_pem C P s

/-- A document is reachable when some public constructor produced it:
`from_der`, `TryFrom<&[u8]>`, `TryFrom<Vec<u8>>`, `from_pem`,
`From<RsaPublicKey>`, `read_der_file` or `read_pem_file`. -/
def Reachable (C : BinCodec) (P : PemCodec) (d : RsaPublicKeyDocument) :
    Prop :=
  (∃ b, from_der C b = .ok d) ∨
  (∃ b, tryFromSlice C b = .ok d) ∨
  (∃ b, tryFromVec C b = .ok d) ∨
  (∃ s, from_pem C P s = .ok d) ∨
  (∃ k, fromPublicKey C k = some d) ∨
  (∃ fs p, read_der_file C fs p = .ok d) ∨
  (∃ tfs p, read_pem_file C P tfs p = .ok d)

end RsaPublicKeyDocument

/- Concrete test instances used by the witnesses. -/

/-- A concrete key value for witnesses. -/
def testKey : RsaPublicKey := ⟨[3], [1, 0, 1]⟩

/-- A concrete byte buffer the test codec accepts. -/
def testBytes : List Nat := [48, 9, 2, 1, 3, 2, 3, 1, 0, 1]

/-- A concrete binary codec: decodes exactly `testBytes` to `testKey`,
encodes exactly `testKey` to `testBytes`. -/
def testCodec : BinCodec where
  decode := fun b => if b = testBytes then .ok testKey else .error ⟨0⟩
  encode := fun k => if k = testKey then .ok testBytes else .error ⟨1⟩

/-- The concrete PEM text the test envelope codec produces. -/
def testPemText : String := "GOODPEM"

/-- A concrete envelope codec: `"GOODPEM"` carries the expected label
with payload `testBytes`; `"FOREIGN"` carries a private-key label with
the same payload. -/
def testPem : PemCodec where
  decodeVec := fun s =>
    if s = testPemText then .ok (PEM_TYPE_LABEL, testBytes)
    else if s = "FOREIGN" then .ok ("RSA PRIVATE KEY", testBytes)
    else .error (.other 0)
  encodeString := fun label b =>
    if label = PEM_TYPE_LABEL then
      if b = testBytes then .ok testPemText else .error (.other 1)
    else .error (.other 1)

namespace RsaPublicKeyDocument

/-- Helper shared by the invariant claims: any reachable document's
bytes decode under the codec. -/
theorem reachable_decode_isOk (C : BinCodec) (P : PemCodec)
    (d : RsaPublicKeyDocument) (h : Reachable C P d) :
    (C.decode d.bytes).isOk = true := by
  have slice : ∀ b d', tryFromSlice C b = .ok d' →
      (C.decode d'.bytes).isOk = true := by
    intro b d' hb
    unfold tryFromSlice at hb
    cases hdec : C.decode b with
    | error e => rw [hdec] at hb; exact absurd hb (by simp)
    | ok v =>
      rw [hdec] at hb
      cases hb
      simp [hdec, Except.isOk, Except.toBool]
  have vec : ∀ b d', tryFromVec C b = .ok d' →
      (C.decode d'.bytes).isOk = true := by
    intro b d' hb
    unfold tryFromVec at hb
    cases hdec : C.decode b with
    | error e => rw [hdec] at hb; exact absurd hb (by simp)
    | ok v =>
      rw [hdec] at hb
      cases hb
      simp [hdec, Except.isOk, Except.toBool]
  have pem : ∀ s, from_pem C P s = .ok d →
      (C.decode d.bytes).isOk = true := by
    intro s hs
    unfold from_pem at hs
    cases hp : P.decodeVec s with
    | error e => rw [hp] at hs; exact absurd hs (by simp)
    | ok lb =>
      rw [hp] at hs
      by_cases hl : lb.1 ≠ PEM_TYPE_LABEL
      · simp [hl] at hs
      · simp [hl] at hs
        exact slice lb.2 d hs
  rcases h with ⟨b, hb⟩ | ⟨b, hb⟩ | ⟨b, hb⟩ | ⟨s, hs⟩ | ⟨k, hk⟩ |
    ⟨fs, p, hf⟩ | ⟨tfs, p, hf⟩
  · exact slice b d hb
  · exact slice b d hb
  · exact vec b d hb
  · exact pem s hs
  · unfold fromPublicKey at hk
    cases henc : C.encode k with
    | error e => rw [henc] at hk; exact absurd hk (by simp [Except.toOption])
    | ok buf =>
      rw [henc] at hk
      simp only [Except.toOption, Option.bind] at hk
      cases hv : tryFromVec C buf with
      | error e => rw [hv] at hk; exact absurd hk (by simp [Except.toOption])
      | ok d' =>
        rw [hv] at hk
        simp [Except.toOption] at hk
        subst hk
        exact vec buf d' hv
  · unfold read_der_file at hf
    cases hc : fs p with
    | none => rw [hc] at hf; exact absurd hf (by simp)
    | some data => rw [hc] at hf; exact vec data d hf
  · unfold read_pem_file at hf
    cases hc : tfs p with
    | none => rw [hc] at hf; exact absurd hf (by simp)
    | some s => rw [hc] at hf; exact pem s hf

end RsaPublicKeyDocument

namespace RsaPublicKeyDocument

/-- C1: every `RsaPublicKeyDocument` reachable through the public
constructors (`from_der`, `from_pem`, `TryFrom` on slices and vectors,
`From<RsaPublicKey>`, `read_der_file`, `read_pem_file`) stores a byte
buffer that decodes successfully under the binary codec; no operation
produces a document whose bytes fail to decode. -/
theorem c1_constructor_invariant (C : BinCodec) (P : PemCodec)
    (d : RsaPublicKeyDocument) (h : Reachable C P d) :
    (C.decode d.bytes).isOk = true :=
  reachable_decode_isOk C P d h

/-- Witness for C1: the document built by `from_der` from `testBytes`
under the concrete test codec satisfies the invariant. -/
theorem c1_witness :
    Reachable testCodec testPem ⟨testBytes⟩ ∧
    (testCodec.decode (RsaPublicKeyDocument.mk testBytes).bytes).isOk = true :=
  ⟨Or.inl ⟨testBytes, rfl⟩,
   c1_constructor_invariant testCodec testPem ⟨testBytes⟩
     (Or.inl ⟨testBytes, rfl⟩)⟩

/-- C2: for every byte sequence whose decode succeeds, `from_der`
succeeds and the stored buffer (`as_ref`) equals the input exactly —
no re-encoding or normalization. -/
theorem c2_from_der_preserves_bytes (C : BinCodec) (b : List Nat)
    (v : RsaPublicKey) (h : C.decode b = .ok v) :
    from_der C b = .ok ⟨b⟩ ∧ as_ref ⟨b⟩ = b := by
  refine ⟨?_, rfl⟩
  unfold from_der tryFromSlice
  rw [h]

/-- Witness for C2 at the concrete test codec and `testBytes`. -/
theorem c2_witness :
    from_der testCodec testBytes = .ok ⟨testBytes⟩ ∧
    as_ref ⟨testBytes⟩ = testBytes :=
  c2_from_der_preserves_bytes testCodec testBytes testKey rfl

/-- C3: for every document reachable through a public constructor,
`public_key` succeeds — the `expect("malformed PublicKeyDocument")`
branch (modelled by the `none` result) is unreachable. -/
theorem c3_public_key_infallible (C : BinCodec) (P : PemCodec)
    (d : RsaPublicKeyDocument) (h : Reachable C P d) :
    (public_key C d).isSome = true := by
  have hok := reachable_decode_isOk C P d h
  unfold public_key
  cases hd : C.decode d.bytes with
  | error e => rw [hd] at hok; simp [Except.isOk, Except.toBool] at hok
  | ok v => simp [Except.toOption]

/-- Witness for C3: `public_key` succeeds on the document built by
`tryFromVec` from `testBytes`. -/
theorem c3_witness :
    Reachable testCodec testPem ⟨testBytes⟩ ∧
    (public_key testCodec ⟨testBytes⟩).isSome = true :=
  ⟨Or.inr (Or.inr (Or.inl ⟨testBytes, rfl⟩)),
   c3_public_key_infallible testCodec testPem ⟨testBytes⟩
     (Or.inr (Or.inr (Or.inl ⟨testBytes, rfl⟩)))⟩

/-- C4: when the PEM envelope decodes to a label different from
`PEM_TYPE_LABEL`, `from_pem` returns the label-mismatch error — a
`pem` error kind distinct from the `asn1` payload-decoding kind —
without consulting the binary codec (the statement holds for every
binary codec `C`, in particular ones under which the payload would
decode successfully). -/
theorem c4_label_mismatch (C : BinCodec) (P : PemCodec) (s : String)
    (label : String) (b : List Nat)
    (hdec : P.decodeVec s = .ok (label, b))
    (hne : label ≠ PEM_TYPE_LABEL) :
    from_pem C P s = .error (.pem .label) := by
  unfold from_pem
  rw [hdec]
  simp [hne]

/-- Witness for C4: the test envelope text `"FOREIGN"` carries a
private-key label over a payload that does decode, and `from_pem`
still fails with the label error. -/
theorem c4_witness :
    testPem.decodeVec "FOREIGN" = .ok ("RSA PRIVATE KEY", testBytes) ∧
    (testCodec.decode testBytes).isOk = true ∧
    from_pem testCodec testPem "FOREIGN" = .error (.pem .label) :=
  ⟨rfl, rfl,
   c4_label_mismatch testCodec testPem "FOREIGN" "RSA PRIVATE KEY" testBytes
     rfl (by decide)⟩

/-- C5: for every byte sequence the codec rejects, `from_der` and both
`TryFrom` impls return the malformed-input (`asn1`) error and no
document is produced; the functions are total, so no panic occurs on
such input. -/
theorem c5_malformed_rejected (C : BinCodec) (b : List Nat) (e : DerError)
    (h : C.decode b = .error e) :
    from_der C b = .error (.asn1 e) ∧
    tryFromSlice C b = .error (.asn1 e) ∧
    tryFromVec C b = .error (.asn1 e) := by
  refine ⟨?_, ?_, ?_⟩ <;>
    simp [from_der, tryFromSlice, tryFromVec, h]

/-- Witness for C5: the byte sequence `[0]` is rejected by the test
codec and every binary constructor reports the `asn1` error. -/
theorem c5_witness :
    from_der testCodec [0] = .error (.asn1 ⟨0⟩) ∧
    tryFromSlice testCodec [0] = .error (.asn1 ⟨0⟩) ∧
    tryFromVec testCodec [0] = .error (.asn1 ⟨0⟩) :=
  c5_malformed_rejected testCodec [0] ⟨0⟩ rfl

end RsaPublicKeyDocument

namespace RsaPublicKeyDocument

/-- C6: for a valid document `d` (its bytes decode), when `to_pem`
produces a string `s` and the external envelope codec round-trips
(`decodeVec` on `s` recovers the expected label with `d`'s bytes,
which §4.3 of the design assigns to the adapter), `from_pem` on `s`
succeeds and yields a document with `d`'s exact bytes. -/
theorem c6_pem_roundtrip (C : BinCodec) (P : PemCodec)
    (d : RsaPublicKeyDocument) (v : RsaPublicKey) (s : String)
    (hvalid : C.decode d.bytes = .ok v)
    (hpem : to_pem P d = some s)
    (hlaw : P.decodeVec s = .ok (PEM_TYPE_LABEL, d.bytes)) :
    from_pem C P s = .ok d := by
  unfold from_pem
  rw [hlaw]
  simp [from_der, tryFromSlice, hvalid]

/-- Witness for C6 at the concrete test codecs: `to_pem` of the test
document yields `"GOODPEM"`, and `from_pem` recovers the document. -/
theorem c6_witness :
    to_pem testPem ⟨testBytes⟩ = some testPemText ∧
    from_pem testCodec testPem testPemText = .ok ⟨testBytes⟩ :=
  ⟨rfl,
   c6_pem_roundtrip testCodec testPem ⟨testBytes⟩ testKey testPemText
     rfl rfl rfl⟩

/-- C7 counterexample: the claim says the `From<&RsaPublicKey>`
conversion returns a typed `EncodingFailure` error and does not
panic; in the source it instead calls
`.expect(error::DER_ENCODING_MSG)` (modelled by the `none` result =
abort).  Under the concrete test codec, encoding the key `⟨[], []⟩`
fails, and the conversion aborts rather than returning any error
value. -/
theorem c7_counterexample :
    testCodec.encode ⟨[], []⟩ = .error ⟨1⟩ ∧
    fromPublicKey testCodec ⟨[], []⟩ = none :=
  ⟨rfl, rfl⟩

/-- C7 amended: when the canonical DER encoding step fails, the
`From<&RsaPublicKey>` conversion panics via
`expect(error::DER_ENCODING_MSG)` (modelled `none`); its signature is
infallible and no error value reaches the caller. -/
theorem c7_encode_failure_aborts (C : BinCodec) (k : RsaPublicKey)
    (e : DerError) (h : C.encode k = .error e) :
    fromPublicKey C k = none := by
  unfold fromPublicKey
  rw [h]
  rfl

/-- Witness for the amended C7 at the concrete test codec. -/
theorem c7_witness :
    testCodec.encode ⟨[], [2]⟩ = .error ⟨1⟩ ∧
    fromPublicKey testCodec ⟨[], [2]⟩ = none :=
  ⟨rfl, c7_encode_failure_aborts testCodec ⟨[], [2]⟩ ⟨1⟩ rfl⟩

/-- C8: for a view `v` obtained by decoding some valid document's
bytes `b`, when the encode step yields bytes `bs` and re-decoding `bs`
recovers `v` (the canonical-encoding obligation §4.2 places on the
adapter), constructing a document from `v` succeeds with exactly the
bytes `bs` and `public_key` on it yields a view equal to `v`;
re-encoding that view again yields the byte-identical `bs`, since
`encode` is a pure Lean function applied to the same `v`. -/
theorem c8_view_roundtrip (C : BinCodec) (b bs : List Nat)
    (v : RsaPublicKey)
    (hdec : C.decode b = .ok v)
    (henc : C.encode v = .ok bs)
    (hcanon : C.decode bs = .ok v) :
    fromPublicKey C v = some ⟨bs⟩ ∧ public_key C ⟨bs⟩ = some v := by
  constructor
  · unfold fromPublicKey tryFromVec
    rw [henc]
    simp [Except.toOption, hcanon]
  · unfold public_key
    simp [hcanon, Except.toOption]

/-- Witness for C8 at the concrete test codec with `testKey` and
`testBytes`. -/
theorem c8_witness :
    fromPublicKey testCodec testKey = some ⟨testBytes⟩ ∧
    public_key testCodec ⟨testBytes⟩ = some testKey :=
  c8_view_roundtrip testCodec testBytes testBytes testKey rfl rfl rfl

/-- C9: writing a valid document to a binary file and reading the same
path back recovers a document with identical bytes, and likewise for
the PEM file pair, assuming the read returns exactly the written
contents (the file stores are maps) and the envelope codec round-trips
the written string. -/
theorem c9_file_roundtrip (C : BinCodec) (P : PemCodec) (fs : FS)
    (tfs : TFS) (p q : String) (d : RsaPublicKeyDocument)
    (v : RsaPublicKey) (s : String)
    (hvalid : C.decode d.bytes = .ok v)
    (hpem : to_pem P d = some s)
    (hlaw : P.decodeVec s = .ok (PEM_TYPE_LABEL, d.bytes)) :
    read_der_file C (write_der_file fs p d) p = .ok d ∧
    ∃ tfs2, write_pem_file P tfs q d = some tfs2 ∧
      read_pem_file C P tfs2 q = .ok d := by
  constructor
  · unfold read_der_file write_der_file fsWrite as_ref
    simp [tryFromVec, hvalid]
  · refine ⟨tfsWrite tfs q s, ?_, ?_⟩
    · unfold write_pem_file
      rw [hpem]
      rfl
    · unfold read_pem_file tfsWrite
      simp [from_pem, from_der, tryFromSlice, hlaw, hvalid]

/-- Witness for C9 at the concrete test codecs, starting from empty
file stores. -/
theorem c9_witness :
    read_der_file testCodec
      (write_der_file (fun _ => none) "a" ⟨testBytes⟩) "a" =
      .ok ⟨testBytes⟩ ∧
    ∃ tfs2, write_pem_file testPem (fun _ => none) "b" ⟨testBytes⟩ =
      some tfs2 ∧
      read_pem_file testCodec testPem tfs2 "b" = .ok ⟨testBytes⟩ :=
  c9_file_roundtrip testCodec testPem (fun _ => none) (fun _ => none)
    "a" "b" ⟨testBytes⟩ testKey testPemText rfl rfl rfl

/-- C10: the `FromStr` implementation and `from_pem` agree on every
input string — identical document on success, identical error on
failure. -/
theorem c10_from_str_eq_from_pem (C : BinCodec) (P : PemCodec)
    (s : String) :
    from_str C P s = from_pem C P s :=
  rfl

end RsaPublicKeyDocument
